import Mathlib

/-!
Verification of the chunked-transfer engine of the `pan` client library.

The definitions below are shallow embeddings of the Go source:
* `utils/file/download.go` — download part planning, retry loop, resume validation;
* `file/upload.go` — path sanitisation, slice-size policy, resume-upload scheduling.

Machine integers (`int`/`int64`) are embedded as `Nat`/`Int`; every quantity involved
(file sizes, part sizes, counts, byte offsets) is far below 2^63, and the sizes fed to
`math.Ceil(float64 a / float64 b)` are below 2^53, where that float computation is the
exact mathematical ceiling, so no overflow or rounding modelling is needed except where
explicitly noted (division by zero in the slice-count computation).
-/

namespace Pan

/-! ## Download part planning (utils/file/download.go, Downloader.Download lines 112-143) -/

/-- Embedding of `int(math.Ceil(float64 a / float64 b))` for `0 < b` and sizes in the
exact float range: the integer ceiling of `a / b`. -/
def goCeilDiv (a b : Nat) : Nat := (a + b - 1) / b

/-- `Downloader.Download` lines 112-119: when no valid preset part count is in effect
(`d.TotalPart == 0 || fileSize/partSize < d.TotalPart`) the part count is recomputed as
`goCeilDiv fileSize partSize`; the result is then capped at 100. -/
def downloadTotalPart (fileSize partSize preset : Nat) : Nat :=
  let tp := if preset = 0 ∨ fileSize / partSize < preset then goCeilDiv fileSize partSize
            else preset
  if tp > 100 then 100 else tp

/-- `eachSize := fileTotalSize / int64(d.TotalPart)` (line 123), Go truncating division
on non-negative operands, i.e. `Nat` division. -/
def downloadEachSize (fileSize partSize preset : Nat) : Nat :=
  fileSize / downloadTotalPart fileSize partSize preset

/-- Runtime file part (`Part` in download.go): index and inclusive byte range. -/
structure Part where
  index : Nat
  From : Int
  To : Int
  deriving Repr, DecidableEq

/-- The `From` offset of the `i`-th planned part (loop of lines 128-143):
`jobs[0].From = 0`, `jobs[i].From = jobs[i-1].To + 1`, where
`jobs[i].To = jobs[i].From + eachSize` for `i < totalPart - 1` and
`jobs[totalPart-1].To = fileTotalSize - 1`. -/
def partFrom (eachSize fileSize totalPart : Nat) : Nat → Int
  | 0 => 0
  | i + 1 =>
    (if i < totalPart - 1 then partFrom eachSize fileSize totalPart i + (eachSize : Int)
     else (fileSize : Int) - 1) + 1

/-- The `To` offset of the `i`-th planned part (lines 135-140). -/
def partTo (eachSize fileSize totalPart : Nat) (i : Nat) : Int :=
  if i < totalPart - 1 then partFrom eachSize fileSize totalPart i + (eachSize : Int)
  else (fileSize : Int) - 1

/-- The `i`-th entry of the `jobs` array built by `Downloader.Download`. -/
def planPart (fileSize partSize preset : Nat) (i : Nat) : Part :=
  { index := i
    From := partFrom (downloadEachSize fileSize partSize preset) fileSize
      (downloadTotalPart fileSize partSize preset) i
    To := partTo (downloadEachSize fileSize partSize preset) fileSize
      (downloadTotalPart fileSize partSize preset) i }

/-- The complete part plan (`jobs`, and mirrored into `snapshot.DoneParts`). -/
def downloadPlan (fileSize partSize preset : Nat) : List Part :=
  (List.range (downloadTotalPart fileSize partSize preset)).map (planPart fileSize partSize preset)

/-- Length in bytes of a part: `To - From + 1` (both offsets inclusive). -/
def partLen (p : Part) : Int := p.To - p.From + 1

theorem partFrom_succ (eachSize fileSize totalPart : Nat) (i : Nat) :
    partFrom eachSize fileSize totalPart (i + 1) = partTo eachSize fileSize totalPart i + 1 := by
  simp [partFrom, partTo]

theorem partFrom_closed (eachSize fileSize totalPart : Nat) (i : Nat)
    (h : i ≤ totalPart - 1) :
    partFrom eachSize fileSize totalPart i = (i : Int) * ((eachSize : Int) + 1) := by
  induction i with
  | zero => simp [partFrom]
  | succ n ih =>
    have hn : n < totalPart - 1 := Nat.lt_of_succ_le h
    rw [partFrom_succ, partTo, if_pos hn, ih (Nat.le_of_lt hn)]
    push_cast
    ring

theorem downloadPlan_length (fileSize partSize preset : Nat) :
    (downloadPlan fileSize partSize preset).length = downloadTotalPart fileSize partSize preset := by
  simp [downloadPlan]

theorem downloadPlan_getD (fileSize partSize preset : Nat) (i : Nat) (d : Part)
    (h : i < downloadTotalPart fileSize partSize preset) :
    (downloadPlan fileSize partSize preset).getD i d = planPart fileSize partSize preset i := by
  have hp : (downloadPlan fileSize partSize preset)[i]? = some (planPart fileSize partSize preset i) := by
    simp [downloadPlan, List.getElem?_map, List.getElem?_range h]
  simp [List.getD, hp]

theorem partFrom_pred (eachSize fileSize totalPart n : Nat) (hn : 0 < n) :
    partFrom eachSize fileSize totalPart n = partTo eachSize fileSize totalPart (n - 1) + 1 := by
  cases n with
  | zero => omega
  | succ m => simpa using partFrom_succ eachSize fileSize totalPart m

theorem partLen_sum (eachSize fileSize totalPart n : Nat) (h : 1 ≤ n) :
    ((List.range n).map (fun i =>
        partTo eachSize fileSize totalPart i - partFrom eachSize fileSize totalPart i + 1)).sum
      = partTo eachSize fileSize totalPart (n - 1) + 1 := by
  induction n with
  | zero => omega
  | succ m ih =>
    rcases Nat.eq_zero_or_pos m with hm | hm
    · subst hm
      rw [List.range_succ, List.range_zero]
      simp only [List.nil_append, List.map_cons, List.map_nil, List.sum_cons, List.sum_nil,
        add_zero, Nat.zero_add, Nat.add_sub_cancel]
      rw [show partFrom eachSize fileSize totalPart 0 = 0 from rfl]
      ring
    · rw [List.range_succ, List.map_append, List.sum_append, ih hm]
      simp only [List.map_cons, List.map_nil, List.sum_cons, List.sum_nil]
      rw [partFrom_pred eachSize fileSize totalPart m hm]
      have hs : m + 1 - 1 = m := rfl
      rw [hs]
      ring

/-- C6: the plan produced by `Downloader.Download` with at least one part tiles
`[0, fileSize)` exactly: the first part starts at 0, each later part starts one past its
predecessor's end, the last part ends at `fileSize - 1`, and the part lengths sum to
`fileSize`. -/
theorem download_plan_tiles (fileSize partSize preset i : Nat)
    (h1 : 1 ≤ downloadTotalPart fileSize partSize preset)
    (hi : i < downloadTotalPart fileSize partSize preset) :
    ((downloadPlan fileSize partSize preset).getD 0 ⟨0, 0, 0⟩).From = 0 ∧
    (0 < i → ((downloadPlan fileSize partSize preset).getD i ⟨0, 0, 0⟩).From
        = ((downloadPlan fileSize partSize preset).getD (i - 1) ⟨0, 0, 0⟩).To + 1) ∧
    ((downloadPlan fileSize partSize preset).getD
        (downloadTotalPart fileSize partSize preset - 1) ⟨0, 0, 0⟩).To = (fileSize : Int) - 1 ∧
    ((downloadPlan fileSize partSize preset).map partLen).sum = (fileSize : Int) := by
  refine ⟨?_, ?_, ?_, ?_⟩
  · rw [downloadPlan_getD fileSize partSize preset 0 _ h1]
    rfl
  · intro hi0
    rw [downloadPlan_getD fileSize partSize preset i _ hi,
      downloadPlan_getD fileSize partSize preset (i - 1) _ (by omega)]
    exact partFrom_pred _ _ _ i hi0
  · rw [downloadPlan_getD fileSize partSize preset _ _ (by omega)]
    show partTo _ _ _ _ = _
    simp [partTo]
  · have hmap : ((downloadPlan fileSize partSize preset).map partLen).sum
        = ((List.range (downloadTotalPart fileSize partSize preset)).map (fun j =>
            partTo (downloadEachSize fileSize partSize preset) fileSize
                (downloadTotalPart fileSize partSize preset) j
              - partFrom (downloadEachSize fileSize partSize preset) fileSize
                (downloadTotalPart fileSize partSize preset) j + 1)).sum := by
      rw [downloadPlan, List.map_map]
      rfl
    rw [hmap, partLen_sum _ _ _ _ h1]
    simp [partTo]

/-- C6 witness: concrete instance (10-byte file, 5-byte parts, no preset: two parts). -/
theorem download_plan_tiles_witness :
    (1 ≤ downloadTotalPart 10 5 0 ∧ 1 < downloadTotalPart 10 5 0) ∧
    (((downloadPlan 10 5 0).getD 0 ⟨0, 0, 0⟩).From = 0 ∧
    (0 < 1 → ((downloadPlan 10 5 0).getD 1 ⟨0, 0, 0⟩).From
        = ((downloadPlan 10 5 0).getD (1 - 1) ⟨0, 0, 0⟩).To + 1) ∧
    ((downloadPlan 10 5 0).getD (downloadTotalPart 10 5 0 - 1) ⟨0, 0, 0⟩).To = (10 : Int) - 1 ∧
    ((downloadPlan 10 5 0).map partLen).sum = (10 : Int)) :=
  ⟨⟨by decide, by decide⟩, download_plan_tiles 10 5 0 1 (by decide) (by decide)⟩

/-- C7: with no caller preset (`TotalPart == 0`) and a positive part size, the planned
part count is the ceiling of `fileSize / partSize` capped at 100 (`⌈/⌉` is Mathlib's
ceiling division on `ℕ`). -/
theorem download_total_part_capped (fileSize partSize : Nat) (hp : 0 < partSize) :
    downloadTotalPart fileSize partSize 0 = min (fileSize ⌈/⌉ partSize) 100 := by
  simp only [downloadTotalPart, goCeilDiv, Nat.ceilDiv_eq_add_pred_div, true_or, if_true]
  split_ifs with h
  · exact (min_eq_right (by omega)).symm
  · exact (min_eq_left (by omega)).symm

/-- C7 witness: 1050-byte file with 10-byte parts wants 105 parts, capped at 100. -/
theorem download_total_part_capped_witness :
    0 < 10 ∧ downloadTotalPart 1050 10 0 = min (1050 ⌈/⌉ 10) 100 :=
  ⟨by decide, download_total_part_capped 1050 10 (by decide)⟩

/-- C1 counterexample: for a 10-byte file split into two parts (`partSize = 5`, no
preset), `eachSize = 10 / 2 = 5` but the first (non-last) part is `[0, 5]`, length 6,
not `eachSize`; so non-last parts do not have length `eachSize` as claimed. -/
theorem download_part_len_counterexample :
    downloadTotalPart 10 5 0 = 2 ∧ downloadEachSize 10 5 0 = 5 ∧
    partLen ((downloadPlan 10 5 0).getD 0 ⟨0, 0, 0⟩) = 6 ∧
    ¬ partLen ((downloadPlan 10 5 0).getD 0 ⟨0, 0, 0⟩) = (downloadEachSize 10 5 0 : Int) := by
  refine ⟨rfl, rfl, by decide, by decide⟩

/-- C1 (amended): in a plan with `totalPart ≥ 2`, every part except the last has length
exactly `eachSize + 1` (with `eachSize = fileSize / totalPart`, integer division), and
the last part has length `fileSize - (totalPart - 1) * (eachSize + 1)`. -/
theorem download_part_lengths (fileSize partSize preset i : Nat)
    (h2 : 2 ≤ downloadTotalPart fileSize partSize preset)
    (hi : i < downloadTotalPart fileSize partSize preset) :
    (i < downloadTotalPart fileSize partSize preset - 1 →
      partLen (planPart fileSize partSize preset i)
        = (downloadEachSize fileSize partSize preset : Int) + 1) ∧
    (i = downloadTotalPart fileSize partSize preset - 1 →
      partLen (planPart fileSize partSize preset i)
        = (fileSize : Int) - (downloadTotalPart fileSize partSize preset - 1 : Nat)
            * ((downloadEachSize fileSize partSize preset : Int) + 1)) := by
  constructor
  · intro hlt
    show partTo _ _ _ _ - partFrom _ _ _ _ + 1 = _
    rw [partTo, if_pos hlt]
    ring
  · intro hlast
    subst hlast
    show partTo _ _ _ _ - partFrom _ _ _ _ + 1 = _
    rw [partTo, if_neg (lt_irrefl _),
      partFrom_closed _ _ _ _ (le_refl _)]
    ring

/-- C1 (amended) witness: 10-byte file in two parts; part 0 has length `5 + 1 = 6` and
part 1 has length `10 - 1 * 6 = 4`. -/
theorem download_part_lengths_witness :
    (2 ≤ downloadTotalPart 10 5 0 ∧ 0 < downloadTotalPart 10 5 0) ∧
    ((0 < downloadTotalPart 10 5 0 - 1 →
      partLen (planPart 10 5 0 0) = (downloadEachSize 10 5 0 : Int) + 1) ∧
    (0 = downloadTotalPart 10 5 0 - 1 →
      partLen (planPart 10 5 0 0) = (10 : Int) - (downloadTotalPart 10 5 0 - 1 : Nat)
          * ((downloadEachSize 10 5 0 : Int) + 1))) :=
  ⟨⟨by decide, by decide⟩, download_part_lengths 10 5 0 0 (by decide) (by decide)⟩

/-! ## Path sanitisation (file/upload.go, handleSpecialChar lines 689-703) -/

/-- Go `strings.Replace(s, pattern, "", -1)` on character lists: scans left to right
and removes every non-overlapping occurrence of the non-empty pattern (the `skip`
argument counts pattern characters still being consumed after a match; an empty
pattern is a no-op, as it is for Go with an empty replacement). -/
def removeAllAux (pattern : List Char) : List Char → Nat → List Char
  | [], _ => []
  | _ :: rest, skip + 1 => removeAllAux pattern rest skip
  | c :: rest, 0 =>
    if pattern ≠ [] ∧ (c :: rest).take pattern.length = pattern then
      removeAllAux pattern rest (pattern.length - 1)
    else
      c :: removeAllAux pattern rest 0

/-- `strings.Replace(s, pattern, "", -1)` on strings. -/
def goReplaceAll (s pattern : String) : String :=
  String.mk (removeAllAux pattern.data s.data 0)

/-- The replacement patterns of `handleSpecialChar`, written with exactly the Go
string literals of upload.go line 691: `"\\\\"` is the two-character sequence of two
backslashes, `"\\0"` is a backslash followed by the digit zero, and `"\\x0B"` is the
four characters backslash, `x`, `0`, `B` — not the single characters backslash, NUL
and VT. -/
def specialChars : List String :=
  ["\\\\", "?", "|", "\"", ">", "<", ":", "*", "\t", "\n", "\r", "\\0", "\\x0B"]

/-- `handleSpecialChar`: removes every occurrence of each pattern in turn. -/
def handleSpecialChar (char : String) : String :=
  specialChars.foldl (fun newChar specialChar => goReplaceAll newChar specialChar) char

/-- The character set the spec says is stripped before precreate: backslash, `?`, `|`,
`"`, `>`, `<`, `:`, `*`, TAB, LF, CR, NUL, VT. -/
def forbiddenChars : List Char :=
  ['\\', '?', '|', '"', '>', '<', ':', '*', '\t', '\n', '\r', '\x00', '\x0B']

/-- Modelled from the spec: sanitisation as the claim describes it — every occurrence
of each forbidden character removed, all other characters preserved in order. -/
def specSanitizedPath (s : String) : String :=
  String.mk (s.data.filter (fun c => ! forbiddenChars.contains c))

/-- C4: evaluation at the failing inputs. A path containing a single backslash (and
likewise NUL 0x00 or VT 0x0B) passes through `handleSpecialChar` unchanged, while the
claimed sanitisation strips those characters: the Go code only removes the literal
substrings `\\`, `\0` and `\x0B`. The other ten characters are removed as claimed. -/
theorem handleSpecialChar_divergence :
    handleSpecialChar "a\\b" = "a\\b" ∧ specSanitizedPath "a\\b" = "ab" ∧
    handleSpecialChar "a\x00b" = "a\x00b" ∧ specSanitizedPath "a\x00b" = "ab" ∧
    handleSpecialChar "a\x0Bb" = "a\x0Bb" ∧ specSanitizedPath "a\x0Bb" = "ab" ∧
    handleSpecialChar "a?b|c\"d>e<f:g*h\ti\nj\rk" = "abcdefghijk" ∧
    specSanitizedPath "a?b|c\"d>e<f:g*h\ti\nj\rk" = "abcdefghijk" := by
  decide

/-! ## Upload slice-size policy (file/upload.go, GetSliceSize lines 559-592) -/

/-- `Uploader.GetSliceSize`: a positive preset `u.SliceSize` is returned as is.
Otherwise the slice size defaults to 4 MiB; if the user-info lookup fails
(`vipType = none`) that default is returned immediately, without clamping; if it
succeeds, VIP 1 raises it to 16 MiB and VIP 2 to 32 MiB, and it is then clamped to
the file size when `fileSize <= sliceSize`. -/
def GetSliceSize (presetSliceSize : Int) (vipType : Option Int) (fileSize : Int) : Int :=
  if presetSliceSize > 0 then presetSliceSize
  else
    match vipType with
    | none => 4194304
    | some v =>
      let sliceSize : Int := if v = 1 then 16777216 else if v = 2 then 33554432 else 4194304
      if fileSize ≤ sliceSize then fileSize else sliceSize

/-- `sliceNum := int(math.Ceil(float64(fileSize) / float64(sliceSize)))` (upload.go
line 136). For `0 < sliceSize` (and sizes in the exact float range) this is the
integer ceiling. For `sliceSize = 0` the float quotient is NaN or ±Inf, whose Go
float-to-int conversion is implementation-dependent (minInt64 on amd64): modelled as
`none`. -/
def sliceNumOf (fileSize sliceSize : Int) : Option Int :=
  if sliceSize = 0 then none else some ((fileSize + sliceSize - 1) / sliceSize)

/-- C2: evaluation at the failing input. For a zero-byte file with a successful
user-info lookup (any tier), `GetSliceSize` clamps the slice size to `fileSize = 0`,
so the slice count is the int conversion of `Ceil(0.0/0.0) = NaN` — undefined
(minInt64 on amd64, where `make(chan UploadPartResponse, sliceNum)` then panics) —
instead of the claimed zero slice uploads followed by a successful commit. -/
theorem zero_byte_upload_slice_num_undefined :
    GetSliceSize 0 (some 0) 0 = 0 ∧ GetSliceSize 0 (some 1) 0 = 0 ∧
    GetSliceSize 0 (some 2) 0 = 0 ∧ sliceNumOf 0 (GetSliceSize 0 (some 0) 0) = none := by
  decide

/-! ## Resume-download validation (utils/file/download.go, ResumeDownload lines 277-295) -/

/-- Persisted download part snapshot (`DownloadPartSnapshot` in download.go). -/
structure DownloadPartSnapshot where
  From : Int
  To : Int
  FilePath : String
  deriving Repr, DecidableEq

/-- One step of the validation pass over `snapshot.DoneParts`: a part with an empty
`FilePath`, or whose temp file still stats, is kept; otherwise it is re-queued
(`FilePath` cleared), its length is subtracted from `doneSize`, and — when the stat
error is not an is-not-exist error — its path is added to the deletion list.
`statExists p` models `os.Stat(p)` succeeding, `statErrIsNotExist p` models
`os.IsNotExist(err)` for a failing stat. -/
def validatePart (statExists statErrIsNotExist : String → Bool)
    (st : List DownloadPartSnapshot × Int × List String) (part : DownloadPartSnapshot) :
    List DownloadPartSnapshot × Int × List String :=
  if part.FilePath = "" then (st.1 ++ [part], st.2.1, st.2.2)
  else if statExists part.FilePath then (st.1 ++ [part], st.2.1, st.2.2)
  else
    (st.1 ++ [{ part with FilePath := "" }],
     st.2.1 - (part.To - part.From + 1),
     if statErrIsNotExist part.FilePath then st.2.2 else st.2.2 ++ [part.FilePath])

/-- The validation pass of `Downloader.ResumeDownload` (lines 277-291) followed by the
clamp `if doneSize < 0 { doneSize = 0 }` (lines 292-295): returns the validated
`DoneParts`, the new `snapshot.DoneSize`, and the accumulated deletion list. -/
def validateDoneParts (statExists statErrIsNotExist : String → Bool)
    (doneParts : List DownloadPartSnapshot) (doneSize : Int) :
    List DownloadPartSnapshot × Int × List String :=
  let r := doneParts.foldl (validatePart statExists statErrIsNotExist) ([], doneSize, [])
  (r.1, if r.2.1 < 0 then 0 else r.2.1, r.2.2)

/-- C10: whatever the input snapshot's `done_parts`, `done_size` and the state of the
temp files on disk, the `DoneSize` left by the validation pass of `ResumeDownload` is
never negative: it is clamped to 0. -/
theorem resume_download_done_size_nonneg (statExists statErrIsNotExist : String → Bool)
    (doneParts : List DownloadPartSnapshot) (doneSize : Int) :
    0 ≤ (validateDoneParts statExists statErrIsNotExist doneParts doneSize).2.1 := by
  simp only [validateDoneParts]
  split_ifs with h <;> omega

/-! ## Retry loops (utils/file/download.go, tryDownloadPart lines 419-445;
file/upload.go, TrySuperFile2Upload lines 449-472) -/

/-- Observable behaviour of one attempt (`downloadPart` / `SuperFile2Upload`): the
progress deltas it reports through the internal progress handler, the temp-file path
it materialised (`""` when none, and always `""` for slice uploads), and its error
(`none` on success). -/
structure AttemptOutcome where
  deltas : List Int
  filePath : String
  err : Option String
  deriving Repr, DecidableEq

/-- Observable result of the whole retry loop: the deltas passed to the outer
progress handler in order, the temp files removed by `os.Remove`, the number of
attempts performed, and the returned error and temp-file path. -/
structure RetryResult where
  progress : List Int
  removed : List String
  attemptsRun : Nat
  err : Option String
  filePath : String
  deriving Repr, DecidableEq

/-- The retry loop `for i := 0; i < 10; i++` shared by `Downloader.tryDownloadPart`
(`removeTemp = true`) and `Uploader.TrySuperFile2Upload` (`removeTemp = false`),
started at attempt index `i` with `fuel` attempts still allowed (the source runs
`runRetry attempts ctxErr removeTemp 0 10`). Each attempt's deltas feed both the
local `partDoneSize` counter and the outer handler; after a failed attempt the temp
file (if any) is removed, the counter is rolled back by reporting `-partDoneSize`,
and — only then — `ctx.Err()` is consulted: a cancelled context stops the loop, which
returns the failed attempt's own error, not the cancellation reason. -/
def runRetry (attempts : Nat → AttemptOutcome) (ctxErr : Nat → Option String)
    (removeTemp : Bool) : Nat → Nat → RetryResult
  | _, 0 => { progress := [], removed := [], attemptsRun := 0, err := none, filePath := "" }
  | i, fuel + 1 =>
    let o := attempts i
    match o.err with
    | none =>
      { progress := o.deltas, removed := [], attemptsRun := 1, err := none,
        filePath := o.filePath }
    | some e =>
      let rolledBack := o.deltas ++ [-o.deltas.sum]
      let rem := if removeTemp = true ∧ o.filePath ≠ "" then [o.filePath] else []
      if fuel = 0 ∨ (ctxErr i).isSome then
        { progress := rolledBack, removed := rem, attemptsRun := 1, err := some e,
          filePath := o.filePath }
      else
        let r := runRetry attempts ctxErr removeTemp (i + 1) fuel
        { progress := rolledBack ++ r.progress, removed := rem ++ r.removed,
          attemptsRun := r.attemptsRun + 1, err := r.err, filePath := r.filePath }

/-- C3 counterexample: with the context cancelled from the start (reason
`context canceled`) and every attempt failing with `network error`, the retry loop
still performs one attempt and returns that attempt's error, not the cancellation
reason — so cancellation is neither checked before the attempt nor reported as the
returned error. -/
theorem retry_cancellation_counterexample :
    (runRetry (fun _ => { deltas := [], filePath := "", err := some "network error" })
        (fun _ => some "context canceled") true 0 10).err = some "network error" ∧
    (runRetry (fun _ => { deltas := [], filePath := "", err := some "network error" })
        (fun _ => some "context canceled") true 0 10).attemptsRun = 1 ∧
    ("network error" : String) ≠ "context canceled" := by
  decide

/-- C3 (amended): in both retry loops, cancellation is checked after every failed
attempt; when the context is cancelled at that check, the loop stops retrying (the
failed attempt is the last one run) and returns the failed attempt's own error. -/
theorem retry_cancel_checked_after_attempt (attempts : Nat → AttemptOutcome)
    (ctxErr : Nat → Option String) (removeTemp : Bool) (i fuel : Nat) (e : String)
    (hfail : (attempts i).err = some e) (hcancel : (ctxErr i).isSome = true) :
    (runRetry attempts ctxErr removeTemp i (fuel + 1)).err = some e ∧
    (runRetry attempts ctxErr removeTemp i (fuel + 1)).attemptsRun = 1 := by
  constructor <;> simp [runRetry, hfail, if_pos (Or.inr hcancel)]

/-- C3 (amended) witness: one failing attempt under a cancelled context. -/
theorem retry_cancel_checked_after_attempt_witness :
    ((fun _ => { deltas := [(2 : Int)], filePath := "t0", err := some "boom" } :
        Nat → AttemptOutcome) 0).err = some "boom" ∧
    (((fun _ => some "canceled") : Nat → Option String) 0).isSome = true ∧
    ((runRetry (fun _ => { deltas := [(2 : Int)], filePath := "t0", err := some "boom" })
        (fun _ => some "canceled") true 0 10).err = some "boom" ∧
     (runRetry (fun _ => { deltas := [(2 : Int)], filePath := "t0", err := some "boom" })
        (fun _ => some "canceled") true 0 10).attemptsRun = 1) :=
  ⟨rfl, rfl, retry_cancel_checked_after_attempt _ _ true 0 9 "boom" rfl rfl⟩

/-- The progress trace the rollback discipline prescribes for `k` consecutive failed
attempts starting at index `i`: each failed attempt's deltas immediately followed by
one compensating delta of the exact opposite sum. -/
def rollbackTrace (attempts : Nat → AttemptOutcome) (i : Nat) : Nat → List Int
  | 0 => []
  | k + 1 =>
    ((attempts i).deltas ++ [-(attempts i).deltas.sum]) ++ rollbackTrace attempts (i + 1) k

/-- The temp files removed over `k` consecutive failed attempts starting at index
`i`: each failed attempt's materialised temp file, when there is one. -/
def removedTrace (attempts : Nat → AttemptOutcome) (removeTemp : Bool) (i : Nat) :
    Nat → List String
  | 0 => []
  | k + 1 =>
    (if removeTemp = true ∧ (attempts i).filePath ≠ "" then [(attempts i).filePath] else [])
      ++ removedTrace attempts removeTemp (i + 1) k

theorem rollbackTrace_sum (attempts : Nat → AttemptOutcome) (i k : Nat) :
    (rollbackTrace attempts i k).sum = 0 := by
  induction k generalizing i with
  | zero => rfl
  | succ n ih =>
    simp only [rollbackTrace, List.sum_append, ih]
    simp

theorem runRetry_success (attempts : Nat → AttemptOutcome) (ctxErr : Nat → Option String)
    (removeTemp : Bool) (i fuel : Nat) (ho : (attempts i).err = none) :
    runRetry attempts ctxErr removeTemp i (fuel + 1)
      = { progress := (attempts i).deltas, removed := [], attemptsRun := 1, err := none,
          filePath := (attempts i).filePath } := by
  simp only [runRetry, ho]

theorem runRetry_fail_stop (attempts : Nat → AttemptOutcome) (ctxErr : Nat → Option String)
    (removeTemp : Bool) (i fuel : Nat) (e : String) (ho : (attempts i).err = some e)
    (hstop : fuel = 0 ∨ (ctxErr i).isSome = true) :
    runRetry attempts ctxErr removeTemp i (fuel + 1)
      = { progress := (attempts i).deltas ++ [-(attempts i).deltas.sum],
          removed := if removeTemp = true ∧ (attempts i).filePath ≠ "" then
            [(attempts i).filePath] else [],
          attemptsRun := 1, err := some e, filePath := (attempts i).filePath } := by
  simp only [runRetry, ho]
  rw [if_pos hstop]

theorem runRetry_fail_next (attempts : Nat → AttemptOutcome) (ctxErr : Nat → Option String)
    (removeTemp : Bool) (i fuel : Nat) (e : String) (ho : (attempts i).err = some e)
    (hstop : ¬ (fuel = 0 ∨ (ctxErr i).isSome = true)) :
    runRetry attempts ctxErr removeTemp i (fuel + 1)
      = { progress := ((attempts i).deltas ++ [-(attempts i).deltas.sum])
            ++ (runRetry attempts ctxErr removeTemp (i + 1) fuel).progress,
          removed := (if removeTemp = true ∧ (attempts i).filePath ≠ "" then
              [(attempts i).filePath] else [])
            ++ (runRetry attempts ctxErr removeTemp (i + 1) fuel).removed,
          attemptsRun := (runRetry attempts ctxErr removeTemp (i + 1) fuel).attemptsRun + 1,
          err := (runRetry attempts ctxErr removeTemp (i + 1) fuel).err,
          filePath := (runRetry attempts ctxErr removeTemp (i + 1) fuel).filePath } := by
  simp only [runRetry, ho]
  rw [if_neg hstop]

theorem runRetry_attemptsRun_pos (attempts : Nat → AttemptOutcome)
    (ctxErr : Nat → Option String) (removeTemp : Bool) (i fuel : Nat) :
    1 ≤ (runRetry attempts ctxErr removeTemp i (fuel + 1)).attemptsRun := by
  cases ho : (attempts i).err with
  | none => rw [runRetry_success attempts ctxErr removeTemp i fuel ho]
  | some e =>
    by_cases hstop : fuel = 0 ∨ (ctxErr i).isSome = true
    · rw [runRetry_fail_stop attempts ctxErr removeTemp i fuel e ho hstop]
    · rw [runRetry_fail_next attempts ctxErr removeTemp i fuel e ho hstop]
      exact Nat.le_add_left 1 _

/-- The number of failed attempts among those the retry loop ran: all of them when
the loop returned an error, all but the successful last one otherwise. -/
def failedCount (r : RetryResult) : Nat :=
  r.attemptsRun - (if r.err.isSome then 0 else 1)

theorem retry_trace (attempts : Nat → AttemptOutcome) (ctxErr : Nat → Option String)
    (removeTemp : Bool) (fuel : Nat) : ∀ i : Nat,
    (runRetry attempts ctxErr removeTemp i (fuel + 1)).progress
      = rollbackTrace attempts i
          (failedCount (runRetry attempts ctxErr removeTemp i (fuel + 1)))
        ++ (if (runRetry attempts ctxErr removeTemp i (fuel + 1)).err.isSome then []
            else (attempts (i + ((runRetry attempts ctxErr removeTemp i (fuel + 1)).attemptsRun
              - 1))).deltas) ∧
    (runRetry attempts ctxErr removeTemp i (fuel + 1)).removed
      = removedTrace attempts removeTemp i
          (failedCount (runRetry attempts ctxErr removeTemp i (fuel + 1))) := by
  induction fuel with
  | zero =>
    intro i
    cases ho : (attempts i).err with
    | none =>
      rw [runRetry_success attempts ctxErr removeTemp i 0 ho]
      simp [failedCount, rollbackTrace, removedTrace]
    | some e =>
      rw [runRetry_fail_stop attempts ctxErr removeTemp i 0 e ho (Or.inl rfl)]
      simp [failedCount, rollbackTrace, removedTrace]
  | succ n ih =>
    intro i
    cases ho : (attempts i).err with
    | none =>
      rw [runRetry_success attempts ctxErr removeTemp i (n + 1) ho]
      simp [failedCount, rollbackTrace, removedTrace]
    | some e =>
      by_cases hstop : n + 1 = 0 ∨ (ctxErr i).isSome = true
      · rw [runRetry_fail_stop attempts ctxErr removeTemp i (n + 1) e ho hstop]
        simp [failedCount, rollbackTrace, removedTrace]
      · rw [runRetry_fail_next attempts ctxErr removeTemp i (n + 1) e ho hstop]
        have hpos := runRetry_attemptsRun_pos attempts ctxErr removeTemp (i + 1) n
        obtain ⟨ihp, ihr⟩ := ih (i + 1)
        cases hb : (runRetry attempts ctxErr removeTemp (i + 1) (n + 1)).err.isSome with
        | true =>
          simp only [failedCount, hb] at ihp ihr
          simp [failedCount, hb, rollbackTrace, removedTrace, ihp, ihr]
        | false =>
          obtain ⟨m, hm⟩ : ∃ m,
              (runRetry attempts ctxErr removeTemp (i + 1) (n + 1)).attemptsRun = m + 1 :=
            ⟨(runRetry attempts ctxErr removeTemp (i + 1) (n + 1)).attemptsRun - 1, by omega⟩
          simp only [failedCount, hb, hm] at ihp ihr
          have hidx : i + (m + 1) = i + 1 + m := by omega
          simp [failedCount, hb, hm, rollbackTrace, removedTrace, ihp, ihr, hidx]

/-- C5: the retry loop's full observable behaviour decomposes as: the progress trace
is exactly each failed attempt's deltas each followed by the compensating rollback
delta `-partDoneSize`, then (on success) the successful attempt's deltas; the removed
temp files are exactly the failed attempts' materialised files (download case); hence
the progress trace sums to the successful attempt's byte count alone (or 0 when every
attempt failed) — each failed attempt's net contribution to `done_size` is zero. -/
theorem retry_rollback_exact (attempts : Nat → AttemptOutcome)
    (ctxErr : Nat → Option String) (removeTemp : Bool) (fuel : Nat) : ∀ i : Nat,
    (runRetry attempts ctxErr removeTemp i (fuel + 1)).progress
      = rollbackTrace attempts i
          (failedCount (runRetry attempts ctxErr removeTemp i (fuel + 1)))
        ++ (if (runRetry attempts ctxErr removeTemp i (fuel + 1)).err.isSome then []
            else (attempts (i + ((runRetry attempts ctxErr removeTemp i (fuel + 1)).attemptsRun
              - 1))).deltas) ∧
    (runRetry attempts ctxErr removeTemp i (fuel + 1)).removed
      = removedTrace attempts removeTemp i
          (failedCount (runRetry attempts ctxErr removeTemp i (fuel + 1))) ∧
    (runRetry attempts ctxErr removeTemp i (fuel + 1)).progress.sum
      = (if (runRetry attempts ctxErr removeTemp i (fuel + 1)).err.isSome then 0
         else (attempts (i + ((runRetry attempts ctxErr removeTemp i (fuel + 1)).attemptsRun
           - 1))).deltas.sum) := by
  intro i
  obtain ⟨h1, h2⟩ := retry_trace attempts ctxErr removeTemp fuel i
  refine ⟨h1, h2, ?_⟩
  rw [h1, List.sum_append, rollbackTrace_sum, zero_add]
  cases hb : (runRetry attempts ctxErr removeTemp i (fuel + 1)).err.isSome <;> simp [hb]

/-! ## Resume upload (file/upload.go, ResumeUpload lines 245-361) -/

/-- Environment of `Uploader.ResumeUpload`: whether `ctx.Done()` has fired when
iteration `i` of the slice loop polls it; how many bytes `localFile.Read` yields for a
slice-size buffer after seeking to a given offset; whether the admitted upload of
slice `i` eventually fails, and the slice MD5 the server returns for it otherwise.
Goroutine completions are resolved at the schedule most favourable to failure
detection: a failed admitted upload makes `hasFailed` visible to the next loop
iteration. -/
structure ResumeEnv where
  ctxCancelled : Nat → Bool
  readLen : Int → Nat
  uploadFails : Nat → Bool
  uploadMd5 : Nat → String

/-- The slice-scheduling loop of `ResumeUpload` (lines 283-323), at iteration `i` with
`rem` iterations left, the current file `offset` and the already admitted slice
indices. A slice with a non-empty `done_slices` entry is skipped (`offset +=
SliceSize`); otherwise the slice is read at `offset` and, if the read is non-empty,
admitted for upload. Returns the admitted indices and whether the loop stopped because
the context was cancelled (`uploadErr = ctx.Err()`). -/
def resumeLoopAux (env : ResumeEnv) (doneSlices : List String) (sliceSize : Int) :
    Nat → Nat → Int → List Nat → List Nat × Bool
  | _, 0, _, admitted => (admitted, false)
  | i, rem + 1, offset, admitted =>
    if admitted.any env.uploadFails then (admitted, false)
    else if env.ctxCancelled i then (admitted, true)
    else if doneSlices.getD i "" ≠ "" then
      resumeLoopAux env doneSlices sliceSize (i + 1) rem (offset + sliceSize) admitted
    else if env.readLen offset = 0 then (admitted, false)
    else
      resumeLoopAux env doneSlices sliceSize (i + 1) rem (offset + (env.readLen offset : Int))
        (admitted ++ [i])

/-- The slice loop as `ResumeUpload` enters it: slice index 0, `sliceNum` iterations,
offset 0, nothing admitted. -/
def resumeUploadRun (env : ResumeEnv) (doneSlices : List String) (sliceSize : Int)
    (sliceNum : Nat) : List Nat × Bool :=
  resumeLoopAux env doneSlices sliceSize 0 sliceNum 0 []

/-- The requests `ResumeUpload` issues after the slice loop (lines 325-357): the
admitted slice indices (each one a `superfile2` upload request), and — when neither
the loop was cancelled nor any admitted upload failed — the commit (`create`) request
with its `block_list`, built from `make([]string, sliceNum)` + `copy(.., DoneSlices)`
with each successfully uploaded slice's server MD5 stored at its `partseq`.
`none` means no commit request is issued. -/
def resumeUploadOutcome (env : ResumeEnv) (doneSlices : List String) (sliceSize : Int)
    (sliceNum : Nat) : List Nat × Option (List String) :=
  let r := resumeUploadRun env doneSlices sliceSize sliceNum
  let blockList := (List.range sliceNum).map (fun j =>
    if r.1.contains j && !env.uploadFails j then env.uploadMd5 j else doneSlices.getD j "")
  (r.1, if r.2 || r.1.any env.uploadFails then none else some blockList)

theorem resumeLoopAux_all_done (env : ResumeEnv) (doneSlices : List String)
    (sliceSize : Int) (hall : ∀ s ∈ doneSlices, s ≠ "")
    (hctx : ∀ i, env.ctxCancelled i = false) :
    ∀ rem i offset admitted, i + rem ≤ doneSlices.length →
      resumeLoopAux env doneSlices sliceSize i rem offset admitted = (admitted, false) := by
  intro rem
  induction rem with
  | zero => intro i offset admitted _; rfl
  | succ n ih =>
    intro i offset admitted hle
    rw [resumeLoopAux]
    by_cases hfail : admitted.any env.uploadFails
    · rw [if_pos hfail]
    · rw [if_neg hfail, hctx i, if_neg (by simp)]
      have hi : i < doneSlices.length := by omega
      have hmem : doneSlices.getD i "" ∈ doneSlices := by
        rw [List.getD_eq_getElem doneSlices "" hi]
        exact List.getElem_mem hi
      rw [if_pos (hall _ hmem)]
      exact ih (i + 1) (offset + sliceSize) admitted (by omega)

theorem map_getD_range_eq (l : List String) :
    (List.range l.length).map (fun j => l.getD j "") = l := by
  apply List.ext_getElem (by simp)
  intro i h1 h2
  simp only [List.getElem_map, List.getElem_range]
  rw [List.getD_eq_getElem l "" h2]

/-- C8: calling `ResumeUpload` on a snapshot whose `done_slices` (of length
`slice_num`) are all non-empty, with a live context, admits zero slice uploads and
issues exactly the commit request, whose `block_list` is the snapshot's `done_slices`
in index order. -/
theorem resume_upload_all_done (env : ResumeEnv) (doneSlices : List String)
    (sliceSize : Int) (sliceNum : Nat) (hlen : doneSlices.length = sliceNum)
    (hall : ∀ s ∈ doneSlices, s ≠ "") (hctx : ∀ i, env.ctxCancelled i = false) :
    (resumeUploadOutcome env doneSlices sliceSize sliceNum).1 = [] ∧
    (resumeUploadOutcome env doneSlices sliceSize sliceNum).2 = some doneSlices := by
  have hrun : resumeUploadRun env doneSlices sliceSize sliceNum = ([], false) :=
    resumeLoopAux_all_done env doneSlices sliceSize hall hctx sliceNum 0 0 [] (by omega)
  constructor
  · simp [resumeUploadOutcome, hrun]
  · simp only [resumeUploadOutcome, hrun]
    simp only [List.contains_nil, Bool.false_and, List.any_nil, Bool.or_false,
      Bool.false_eq_true, if_false]
    rw [← hlen, map_getD_range_eq]

/-- C8 witness: a two-slice snapshot with both slices already uploaded. -/
theorem resume_upload_all_done_witness :
    (["m0", "m1"] : List String).length = 2 ∧
    ((resumeUploadOutcome ⟨fun _ => false, fun _ => 0, fun _ => false, fun _ => ""⟩
        ["m0", "m1"] 4 2).1 = [] ∧
     (resumeUploadOutcome ⟨fun _ => false, fun _ => 0, fun _ => false, fun _ => ""⟩
        ["m0", "m1"] 4 2).2 = some ["m0", "m1"]) :=
  ⟨rfl, resume_upload_all_done ⟨fun _ => false, fun _ => 0, fun _ => false, fun _ => ""⟩
    ["m0", "m1"] 4 2 rfl (by decide) (fun _ => rfl)⟩

/-! ## Bounded part-download concurrency (utils/file/download.go, Download lines
147-194 and ResumeDownload lines 253-325) -/

/-- The semaphore capacity (lines 147-150 / 253-256): `d.PartCoroutineNum`, reduced to
the number of planned parts when there are fewer parts than coroutines. -/
def clampedPartCoroutineNum (partCoroutineNum totalPart : Nat) : Nat :=
  if totalPart < partCoroutineNum then totalPart else partCoroutineNum

/-- State of the semaphore discipline around `sem := make(chan int, cap)`: `pending`
counts permits taken by the producer's `sem <- 1` whose goroutine has not started
yet, `running` counts spawned part downloads that have not yet released their permit
with `<-sem`. -/
structure SemState where
  pending : Nat
  running : Nat
  deriving Repr, DecidableEq

/-- Events of the producer loop and the part-download goroutines: the producer blocks
on `sem <- 1` unless fewer than `cap` permits are out, then spawns `go func(job)`;
a finished goroutine sends its response and performs `<-sem`. -/
inductive SemStep (cap : Nat) : SemState → SemState → Prop
  | acquire (s : SemState) : s.pending + s.running < cap →
      SemStep cap s ⟨s.pending + 1, s.running⟩
  | spawn (s : SemState) : 0 < s.pending → SemStep cap s ⟨s.pending - 1, s.running + 1⟩
  | finish (s : SemState) : 0 < s.running → SemStep cap s ⟨s.pending, s.running - 1⟩

/-- States reachable from the start of the part loop (no permits out, nothing in
flight). -/
def SemReachable (cap : Nat) (s : SemState) : Prop :=
  Relation.ReflTransGen (SemStep cap) ⟨0, 0⟩ s

theorem semReachable_bound (cap : Nat) (s : SemState) (h : SemReachable cap s) :
    s.pending + s.running ≤ cap := by
  induction h with
  | refl => simp
  | tail _ hstep ih =>
    cases hstep with
    | acquire hlt => dsimp at ih ⊢; omega
    | spawn hp => dsimp at ih ⊢; omega
    | finish hr => dsimp at ih ⊢; omega

/-- C9: in the part loops of `Download` and `ResumeDownload`, every reachable state of
the semaphore discipline has at most `PartCoroutineNum` — clamped to the number of
planned parts — part downloads in flight, and that capacity is
`min PartCoroutineNum totalPart`. -/
theorem download_inflight_bounded (partCoroutineNum totalPart : Nat) (s : SemState)
    (h : SemReachable (clampedPartCoroutineNum partCoroutineNum totalPart) s) :
    s.running ≤ clampedPartCoroutineNum partCoroutineNum totalPart ∧
    clampedPartCoroutineNum partCoroutineNum totalPart = min partCoroutineNum totalPart := by
  constructor
  · have := semReachable_bound _ _ h
    omega
  · rw [clampedPartCoroutineNum, Nat.min_def]
    split_ifs <;> omega

/-- C9 witness: with budget 5 and 3 planned parts, the state after one acquire and one
spawn is reachable and has one part in flight, within the capacity `min 5 3 = 3`. -/
theorem download_inflight_bounded_witness :
    SemReachable (clampedPartCoroutineNum 5 3) ⟨0, 1⟩ ∧
    ((⟨0, 1⟩ : SemState).running ≤ clampedPartCoroutineNum 5 3 ∧
     clampedPartCoroutineNum 5 3 = min 5 3) := by
  have hreach : SemReachable (clampedPartCoroutineNum 5 3) ⟨0, 1⟩ :=
    Relation.ReflTransGen.tail (Relation.ReflTransGen.tail Relation.ReflTransGen.refl
      (SemStep.acquire ⟨0, 0⟩ (by decide))) (SemStep.spawn ⟨1, 0⟩ (by decide))
  exact ⟨hreach, download_inflight_bounded 5 3 ⟨0, 1⟩ hreach⟩

end Pan
